import Mathlib

/-!
# Shallow embedding of the shpiller compiler core

This file embeds, in Lean 4, the three-stage pipeline of the shpiller
repository (`src/tokenizer.rs`, `src/parser.rs`, `src/generator.rs`) and the
driver's own local lexer/emitter (`src/main.rs`), and proves the
specification claims about them.

Modelling conventions:
 * Rust `String`/`Vec<char>` buffers are modelled by `List Char`;
   classification receives the buffer as a Lean `String` built with
   `String.mk`.
 * Rust `i64`/`i32` values are modelled by `Int` with the parse functions
   performing the explicit range checks that `str::parse::<i64>` /
   `str::parse::<i32>` perform.
 * Rust panics (the parser's `panic!`, slice index-out-of-bounds in
   `Parser::consume`, and `Option::unwrap` on `None`) are modelled as
   `Except.error` carrying the panic message.
 * The parser's `HashMap<String, i64>` symbol table is modelled as an
   association list with newest insertion first; `insert` is cons and
   `get` is first-match lookup, which agrees observationally with the
   hash map.
-/

set_option autoImplicit false

/-! ## Character and numeral helpers (Rust `str::parse`, `str::trim`) -/

/-- Unicode `White_Space` code points, as used by Rust's `char::is_whitespace`
(which `str::trim` trims on both ends). -/
def rustIsWhitespace (c : Char) : Bool :=
  c.toNat ∈ [0x09, 0x0A, 0x0B, 0x0C, 0x0D, 0x20, 0x85, 0xA0, 0x1680,
    0x2000, 0x2001, 0x2002, 0x2003, 0x2004, 0x2005, 0x2006, 0x2007, 0x2008,
    0x2009, 0x200A, 0x2028, 0x2029, 0x202F, 0x205F, 0x3000]

/-- Rust `str::trim`: drop Unicode whitespace from both ends. -/
def rustTrim (s : String) : String :=
  String.mk (((s.data.dropWhile rustIsWhitespace).reverse.dropWhile
    rustIsWhitespace).reverse)

/-- Is `c` an ASCII decimal digit, i.e. a code point in `['0', '9']`
(codes 48–57)? Rust integer parsing accepts only these. -/
def isAsciiDigit (c : Char) : Bool :=
  48 ≤ c.toNat ∧ c.toNat ≤ 57

/-- Numeric value of an ASCII digit. -/
def digitVal (c : Char) : Nat :=
  c.toNat - '0'.toNat

/-- Value of a run of characters required to all be ASCII digits; `none` if a
non-digit occurs.  The empty run has value `some 0` (callers guard emptiness). -/
def allDigitsVal (cs : List Char) : Option Nat :=
  cs.foldl (fun acc c => acc.bind fun n =>
    if isAsciiDigit c then some (n * 10 + digitVal c) else none) (some 0)

/-- Rust `str::parse::<i64>`: an optional single `+`/`-` sign followed by one
or more ASCII digits, rejecting the empty digit run and any value outside
`[-2^63, 2^63 - 1]`. -/
def parseI64 (s : String) : Option Int :=
  match s.data with
  | [] => none
  | c :: rest =>
    if c = '+' then
      if rest = [] then none
      else (allDigitsVal rest).bind fun n =>
        if n ≤ 2 ^ 63 - 1 then some (n : Int) else none
    else if c = '-' then
      if rest = [] then none
      else (allDigitsVal rest).bind fun n =>
        if n ≤ 2 ^ 63 then some (-(n : Int)) else none
    else
      (allDigitsVal (c :: rest)).bind fun n =>
        if n ≤ 2 ^ 63 - 1 then some (n : Int) else none

/-- Rust `str::parse::<i32>`: as `parseI64` but with the `i32` range. -/
def parseI32 (s : String) : Option Int :=
  match s.data with
  | [] => none
  | c :: rest =>
    if c = '+' then
      if rest = [] then none
      else (allDigitsVal rest).bind fun n =>
        if n ≤ 2 ^ 31 - 1 then some (n : Int) else none
    else if c = '-' then
      if rest = [] then none
      else (allDigitsVal rest).bind fun n =>
        if n ≤ 2 ^ 31 then some (-(n : Int)) else none
    else
      (allDigitsVal (c :: rest)).bind fun n =>
        if n ≤ 2 ^ 31 - 1 then some (n : Int) else none

/-! ## `src/tokenizer.rs`: `Token` and `Tokenizer::tokenize` -/

/-- The token type of `src/tokenizer.rs` (`enum Token`). -/
inductive Token where
  | Exit
  | IntLiteral (value : Int)
  | Semicolon
  | OpenParen
  | CloseParen
  | Let
  | Equals
  | Identifier (name : String)
  deriving DecidableEq, Repr

namespace Tokenizer

/-- The delimiter characters of `Tokenizer::tokenize`'s outer `match`:
space, `;`, `(`, `)`, `=`, newline. -/
def isDelim (c : Char) : Bool :=
  c = ' ' ∨ c = ';' ∨ c = '(' ∨ c = ')' ∨ c = '=' ∨ c = '\n'

/-- The token (if any) a punctuation delimiter emits for itself: the inner
`match ch` of `Tokenizer::tokenize`.  Whitespace delimiters emit nothing. -/
def punctToken (c : Char) : List Token :=
  if c = ';' then [Token.Semicolon]
  else if c = '(' then [Token.OpenParen]
  else if c = ')' then [Token.CloseParen]
  else if c = '=' then [Token.Equals]
  else []

/-- Classification of a non-empty accumulator, exactly the `if`/`else if`
chain that `Tokenizer::tokenize` runs both inside the loop and at the final
flush: `exit` keyword, then `let` keyword, then `i64` literal, then
identifier (trimmed). -/
def classify (acc : String) : Token :=
  if acc = "exit" then Token.Exit
  else if acc = "let" then Token.Let
  else
    match parseI64 acc with
    | some value => Token.IntLiteral value
    | none => Token.Identifier (rustTrim acc)

/-- Flush the accumulator: emit nothing when it is empty, otherwise its
classification. -/
def flush (acc : List Char) : List Token :=
  if acc = [] then [] else [classify (String.mk acc)]

/-- The character loop of `Tokenizer::tokenize`, with the accumulator
`current_token` passed explicitly.  On a delimiter the accumulator is
flushed, the delimiter's own token (if punctuation) is emitted and the
accumulator cleared; any other character is appended to the accumulator.
After the last character the accumulator is flushed once more.
(The source's `dbg!(&tokens)` debug print has no effect on the value.) -/
def tokenizeAux : List Char → List Char → List Token
  | [], acc => flush acc
  | c :: cs, acc =>
    if isDelim c then flush acc ++ (punctToken c ++ tokenizeAux cs [])
    else tokenizeAux cs (acc ++ [c])

/-- `Tokenizer::tokenize`: run the character loop on the source text with an
empty accumulator. -/
def tokenize (s : String) : List Token :=
  tokenizeAux s.data []

end Tokenizer

/-! ## `src/parser.rs`: AST nodes and `Parser` -/

/-- `NodeExpr`: a fully resolved integer-valued expression. -/
structure NodeExpr where
  int_value : Int
  deriving DecidableEq, Repr

/-- `NodeExit`: the program node, wrapping the exit operand expression. -/
structure NodeExit where
  expr : NodeExpr
  deriving DecidableEq, Repr

namespace Parser

/-- The symbol table `HashMap<String, i64>`, modelled as an association list
with the newest binding first (see the header comment). -/
abbrev SymTable := List (String × Int)

/-- The panic message of a Rust out-of-bounds slice index, raised when
`Parser::consume` runs `self.tokens[self.index - 1]` past the end of the
token vector. -/
def oobPanic : String := "index out of bounds"

/-- The panic message of `Option::unwrap` on `None`, raised by
`expr.unwrap()` in `Parser::parse`. -/
def unwrapPanic : String := "called Option::unwrap() on a None value"

/-- `Parser::parse_expression`, over the remaining token list: an integer
literal is consumed verbatim; an identifier is consumed and looked up in the
symbol table, a missing entry panicking with the undefined-variable message;
any other current token (or end of input) yields `none` without consuming. -/
def parse_expression : List Token → SymTable → Except String (Option NodeExpr × List Token)
  | Token.IntLiteral int_value :: rest, _ =>
    .ok (some ⟨int_value⟩, rest)
  | Token.Identifier name :: rest, symbol_table =>
    match symbol_table.lookup name with
    | some value => .ok (some ⟨value⟩, rest)
    | none => .error ("Undefined variable: " ++ name)
  | ts, _ => .ok (none, ts)

/-- `Parser::parse_assignment`, over the remaining token list (whose head is
the `Let` that the caller peeked): consume the `Let`, then require an
identifier, an `Equals` and an integer literal in strict order, panicking
with the respective message on a wrong token and with the out-of-bounds
panic when the tokens run out; insert the binding on success. -/
def parse_assignment : List Token → SymTable → Except String (SymTable × List Token)
  | [], _ => .error oobPanic
  | _ :: rest, symbol_table =>
    match rest with
    | [] => .error oobPanic
    | Token.Identifier name :: r2 =>
      match r2 with
      | [] => .error oobPanic
      | Token.Equals :: r3 =>
        match r3 with
        | [] => .error oobPanic
        | Token.IntLiteral value :: r4 =>
          .ok ((name, value) :: symbol_table, r4)
        | _ :: _ => .error "Expected an integer after equals sign."
      | _ :: _ => .error "Expected equals sign after identifier."
    | _ :: _ => .error "Expected identifier for variable name."

/-- The `while let Some(token) = self.peek_current()` loop of
`Parser::parse`, with the cursor replaced by the remaining token list and
the symbol table and the current `exit_node` passed explicitly.  The `Let`
and `Exit` branches inline `parse_assignment` and `parse_expression`
(the lemmas `parseLoop_let_eq` and `parseLoop_exit_eq` below restate the two
branches through those functions); the final result is
`exit_node.or(Some(NodeExit { expr: NodeExpr { int_value: 0 } }))`. -/
def parseLoop : List Token → SymTable → Option NodeExit → Except String (Option NodeExit)
  | [], _, exit_node => .ok (exit_node.or (some ⟨⟨0⟩⟩))
  | Token.Let :: rest, symbol_table, exit_node =>
    match rest with
    | [] => .error oobPanic
    | Token.Identifier name :: r2 =>
      match r2 with
      | [] => .error oobPanic
      | Token.Equals :: r3 =>
        match r3 with
        | [] => .error oobPanic
        | Token.IntLiteral value :: r4 =>
          parseLoop r4 ((name, value) :: symbol_table) exit_node
        | _ :: _ => .error "Expected an integer after equals sign."
      | _ :: _ => .error "Expected equals sign after identifier."
    | _ :: _ => .error "Expected identifier for variable name."
  | Token.Exit :: rest, symbol_table, exit_node =>
    match rest with
    | [] => .error oobPanic
    | Token.OpenParen :: r2 =>
      match r2 with
      | Token.IntLiteral int_value :: r3 =>
        match r3 with
        | [] => .error oobPanic
        | Token.CloseParen :: r4 =>
          parseLoop r4 symbol_table (some ⟨⟨int_value⟩⟩)
        | _ :: _ => .error "Expected a close parenthesis after expression."
      | Token.Identifier name :: r3 =>
        match symbol_table.lookup name with
        | some value =>
          match r3 with
          | [] => .error oobPanic
          | Token.CloseParen :: r4 =>
            parseLoop r4 symbol_table (some ⟨⟨value⟩⟩)
          | _ :: _ => .error "Expected a close parenthesis after expression."
        | none => .error ("Undefined variable: " ++ name)
      | r3 =>
        match r3 with
        | [] => .error oobPanic
        | Token.CloseParen :: _ => .error unwrapPanic
        | _ :: _ => .error "Expected a close parenthesis after expression."
    | _ :: _ => .error "Expected an open parenthesis after 'exit'."
  | _ :: rest, symbol_table, exit_node => parseLoop rest symbol_table exit_node

/-- `Parser::parse` on a fresh `Parser` (`Parser::new`): cursor at zero,
empty symbol table, no exit node yet. -/
def parse (tokens : List Token) : Except String (Option NodeExit) :=
  parseLoop tokens [] none

end Parser

/-! ## `src/generator.rs`: `Generator::generate` -/

namespace Generator

/-- `Generator::generate`: render the one format string of the generator,
with the root expression's integer value substituted positionally (note the
space after the value, exactly as in the source's `mov rdi, {} \n`). -/
def generate (root : NodeExit) : String :=
  "global _start\n_start:\n    mov rax, 60\n    mov rdi, " ++
    toString root.expr.int_value ++ " \n    syscall\n"

end Generator

/-- The Lexer → Parser → Generator composition that §4.4 of the spec assigns
to the driver (errors propagate; the optional program node is rendered). -/
def corePipeline (s : String) : Except String (Option String) :=
  (Parser.parse (Tokenizer.tokenize s)).map (fun r => r.map Generator.generate)

/-! ## `src/main.rs`: the driver's own lexer and emitter -/

namespace Main

/-- The token type that `src/main.rs` defines for itself (`enum TokenType`):
a `return` keyword, an `i32` literal and a semicolon. -/
inductive TokenType where
  | Return
  | IntLiteral (value : Int)
  | Semicolon
  deriving DecidableEq, Repr

/-- The accumulator flush of the driver's local `tokenize`: `return` becomes
`TokenType::Return`, a valid `i32` numeral becomes `TokenType::IntLiteral`,
and anything else is silently dropped (there is no identifier fallback). -/
def flush (acc : List Char) : List TokenType :=
  if acc = [] then []
  else if String.mk acc = "return" then [TokenType.Return]
  else
    match parseI32 (String.mk acc) with
    | some value => [TokenType.IntLiteral value]
    | none => []

/-- The character loop of the driver's local `tokenize` (`src/main.rs`): its
only delimiters are space and `;`, and only `;` emits a token of its own. -/
def tokenizeAux : List Char → List Char → List TokenType
  | [], acc => flush acc
  | c :: cs, acc =>
    if c = ' ' ∨ c = ';' then
      flush acc ++ ((if c = ';' then [TokenType.Semicolon] else []) ++ tokenizeAux cs [])
    else tokenizeAux cs (acc ++ [c])

/-- The driver's local `tokenize` (`src/main.rs`), not
`Tokenizer::tokenize`. -/
def tokenize (s : String) : List TokenType :=
  tokenizeAux s.data []

/-- The per-token assembly fragment of the driver's `tokens_to_asm`. -/
def tokenAsm : TokenType → String
  | TokenType.Return => "    mov rax, 60\n    mov rdi, "
  | TokenType.IntLiteral value => toString value
  | TokenType.Semicolon => "\n    syscall\n"

/-- The driver's `tokens_to_asm` (`src/main.rs`): map each token to its
fragment and fold the fragments onto the fixed header. -/
def tokens_to_asm (tokens : List TokenType) : String :=
  (tokens.map tokenAsm).foldl (fun out token_asm => out ++ token_asm)
    "global _start\n_start:\n"

/-- The text-to-text behaviour of `main` (`src/main.rs`) up to the write of
the sibling `.asm` file: reject empty file content, otherwise run the
driver's own `tokenize` and `tokens_to_asm` on it.  (Reading the file,
invoking NASM and invoking ld are I/O outside the embedding.) -/
def mainOutput (file_content : String) : Except String String :=
  if file_content = "" then .error "Input file is empty"
  else .ok (tokens_to_asm (tokenize file_content))

end Main

deriving instance DecidableEq for Except

/-! ## Specification-side helper values -/

/-- Decimal value of a run of digit characters (the measure used to state
the overflow claim about the lexer). -/
def digitsNat (cs : List Char) : Nat :=
  cs.foldl (fun n c => n * 10 + digitVal c) 0

/-- The token sequence of one complete parenthesised exit statement with an
integer-literal operand, `exit(v);`. -/
def exitStmtTokens (v : Int) : List Token :=
  [Token.Exit, Token.OpenParen, Token.IntLiteral v, Token.CloseParen,
    Token.Semicolon]

deriving instance DecidableEq for Except

/-! ## Helper lemmas about the lexer -/

namespace Tokenizer

/-- Over a run free of delimiter characters, the character loop only extends
the accumulator, and the final flush classifies the whole run. -/
theorem tokenizeAux_nondelim : ∀ (cs acc : List Char),
    (∀ c ∈ cs, isDelim c = false) →
    tokenizeAux cs acc = flush (acc ++ cs)
  | [], acc, _ => by simp [tokenizeAux]
  | c :: cs, acc, h => by
    have hc : isDelim c = false := h c (List.mem_cons_self c cs)
    have ih := tokenizeAux_nondelim cs (acc ++ [c])
      (fun x hx => h x (List.mem_cons_of_mem c hx))
    simp [tokenizeAux, hc, ih]

/-- Splitting at the first delimiter: the delimiter-free run before it is
flushed as one token, the delimiter contributes its own punctuation token,
and the loop restarts with an empty accumulator. -/
theorem tokenizeAux_split : ∀ (run : List Char) (d : Char) (t acc : List Char),
    (∀ c ∈ run, isDelim c = false) → isDelim d = true →
    tokenizeAux (run ++ d :: t) acc =
      flush (acc ++ run) ++ (punctToken d ++ tokenizeAux t [])
  | [], d, t, acc, _, hd => by simp [tokenizeAux, hd]
  | c :: run, d, t, acc, h, hd => by
    have hc : isDelim c = false := h c (List.mem_cons_self c run)
    have ih := tokenizeAux_split run d t (acc ++ [c])
      (fun x hx => h x (List.mem_cons_of_mem c hx)) hd
    simp [tokenizeAux, hc, ih]

end Tokenizer

/-! ## Helper lemmas about numerals and trimming -/

/-- An ASCII digit is not one of the lexer's delimiter characters. -/
theorem isDelim_eq_false_of_digit {c : Char} (h : isAsciiDigit c = true) :
    Tokenizer.isDelim c = false := by
  apply decide_eq_false
  rintro (rfl | rfl | rfl | rfl | rfl | rfl) <;> exact absurd h (by decide)

/-- An ASCII digit is not a whitespace character. -/
theorem rustIsWhitespace_eq_false_of_digit {c : Char}
    (h : isAsciiDigit c = true) : rustIsWhitespace c = false := by
  have hn : 48 ≤ c.toNat ∧ c.toNat ≤ 57 := by
    simpa [isAsciiDigit] using h
  apply decide_eq_false
  intro hmem
  simp only [List.mem_cons, List.not_mem_nil, or_false] at hmem
  omega

/-- `dropWhile` is the identity when the predicate fails on every element. -/
theorem dropWhile_eq_self_of_forall_false {α : Type} (p : α → Bool) :
    ∀ l : List α, (∀ c ∈ l, p c = false) → List.dropWhile p l = l
  | [], _ => rfl
  | c :: cs, h => by
    simp [List.dropWhile, h c (List.mem_cons_self c cs)]

/-- Trimming a string of ASCII digits is the identity. -/
theorem rustTrim_of_digits (s : String)
    (h : ∀ c ∈ s.data, isAsciiDigit c = true) : rustTrim s = s := by
  have hws : ∀ c ∈ s.data, rustIsWhitespace c = false :=
    fun c hc => rustIsWhitespace_eq_false_of_digit (h c hc)
  have h1 : s.data.dropWhile rustIsWhitespace = s.data :=
    dropWhile_eq_self_of_forall_false _ _ hws
  have h2 : s.data.reverse.dropWhile rustIsWhitespace = s.data.reverse :=
    dropWhile_eq_self_of_forall_false _ _
      (fun c hc => hws c (List.mem_reverse.mp hc))
  cases s with
  | mk data => simp only [rustTrim] at *; rw [h1, h2, List.reverse_reverse]

/-- On a run of digits the fallible fold of `allDigitsVal` computes the
plain decimal fold. -/
theorem allDigitsVal_foldl : ∀ (cs : List Char) (n : Nat),
    (∀ c ∈ cs, isAsciiDigit c = true) →
    List.foldl (fun acc c => acc.bind fun m =>
        if isAsciiDigit c then some (m * 10 + digitVal c) else none)
      (some n) cs =
      some (List.foldl (fun m c => m * 10 + digitVal c) n cs)
  | [], n, _ => rfl
  | c :: cs, n, h => by
    have hc : isAsciiDigit c = true := h c (List.mem_cons_self c cs)
    have ih := allDigitsVal_foldl cs (n * 10 + digitVal c)
      (fun x hx => h x (List.mem_cons_of_mem c hx))
    simp [hc, ih]

/-- On a run of digits `allDigitsVal` computes `digitsNat`. -/
theorem allDigitsVal_of_digits (cs : List Char)
    (h : ∀ c ∈ cs, isAsciiDigit c = true) :
    allDigitsVal cs = some (digitsNat cs) :=
  allDigitsVal_foldl cs 0 h

/-- A non-empty all-digit numeral whose value exceeds `2^63 - 1` fails
`str::parse::<i64>`. -/
theorem parseI64_overflow : ∀ (cs : List Char), cs ≠ [] →
    (∀ c ∈ cs, isAsciiDigit c = true) →
    2 ^ 63 - 1 < digitsNat cs → parseI64 (String.mk cs) = none
  | c :: rest, _, h, hbig => by
    have hc : isAsciiDigit c = true := h c (List.mem_cons_self c rest)
    have hplus : ¬(c = '+') := by
      rintro rfl; exact absurd hc (by decide)
    have hminus : ¬(c = '-') := by
      rintro rfl; exact absurd hc (by decide)
    have hval : allDigitsVal (c :: rest) = some (digitsNat (c :: rest)) :=
      allDigitsVal_of_digits _ h
    show (if c = '+' then _ else if c = '-' then _
      else (allDigitsVal (c :: rest)).bind fun n =>
        if n ≤ 2 ^ 63 - 1 then some (n : Int) else none) = none
    rw [if_neg hplus, if_neg hminus, hval]
    show (if digitsNat (c :: rest) ≤ 2 ^ 63 - 1 then some ((digitsNat (c :: rest) : Int)) else none) = none
    rw [if_neg (by omega)]

/-! ## Helper lemmas about the parser -/

namespace Parser

/-- The inlined `Let` branch of `parseLoop` is exactly `parse_assignment`
followed by continuing the loop with the updated symbol table. -/
theorem parseLoop_let_eq (rest : List Token) (symbol_table : SymTable)
    (exit_node : Option NodeExit) :
    parseLoop (Token.Let :: rest) symbol_table exit_node =
      match parse_assignment (Token.Let :: rest) symbol_table with
      | .error e => .error e
      | .ok (st, ts) => parseLoop ts st exit_node := by
  cases rest with
  | nil => rfl
  | cons t r2 =>
    cases t <;> try rfl
    case Identifier name =>
      cases r2 with
      | nil => rfl
      | cons t2 r3 =>
        cases t2 <;> try rfl
        case Equals =>
          cases r3 with
          | nil => rfl
          | cons t3 r4 => cases t3 <;> rfl

/-- The inlined `Exit` branch of `parseLoop` is exactly: consume the `Exit`,
require `OpenParen`, run `parse_expression`, require `CloseParen`, unwrap
the expression into the new exit node and continue the loop. -/
theorem parseLoop_exit_eq (rest : List Token) (symbol_table : SymTable)
    (exit_node : Option NodeExit) :
    parseLoop (Token.Exit :: rest) symbol_table exit_node =
      match rest with
      | [] => .error oobPanic
      | Token.OpenParen :: r2 =>
        (match parse_expression r2 symbol_table with
        | .error e => .error e
        | .ok (eopt, r3) =>
          match r3 with
          | [] => .error oobPanic
          | Token.CloseParen :: r4 =>
            (match eopt with
            | some e => parseLoop r4 symbol_table (some ⟨e⟩)
            | none => .error unwrapPanic)
          | _ :: _ => .error "Expected a close parenthesis after expression.")
      | _ :: _ => .error "Expected an open parenthesis after 'exit'." := by
  cases rest with
  | nil => rfl
  | cons t r2 =>
    cases t <;> try rfl
    case OpenParen =>
      cases r2 with
      | nil => rfl
      | cons t2 r3 =>
        cases t2 <;> try (cases r3 with | nil => rfl | cons t3 r4 => cases t3 <;> rfl)
        case Identifier name =>
          cases h : symbol_table.lookup name <;>
            simp only [parseLoop, parse_expression, h] <;>
            (cases r3 with | nil => rfl | cons t3 r4 => cases t3 <;> rfl)

/-- Whenever `parseLoop` returns normally, the returned option is `some`:
the loop ends with `exit_node.or(Some(default))`. -/
theorem parseLoop_ok_isSome (ts : List Token) (sym : SymTable)
    (en : Option NodeExit) :
    ∀ r, parseLoop ts sym en = .ok r → ∃ n, r = some n := by
  induction ts, sym, en using parseLoop.induct <;> intro r h
  case case1 sym en =>
    cases en <;> exact ⟨_, (by simpa [parseLoop] using h.symm)⟩
  case case16 sym en name r3 hno =>
    simp [parseLoop, hno] at h
  all_goals simp_all [parseLoop]

/-- On a token sequence containing no `Exit` token, a normal return of
`parseLoop` leaves the incoming exit node untouched, defaulted to the
integer-0 program node. -/
theorem parseLoop_no_exit (ts : List Token) (sym : SymTable)
    (en : Option NodeExit) :
    ∀ r, Token.Exit ∉ ts → parseLoop ts sym en = .ok r →
      r = en.or (some ⟨⟨0⟩⟩) := by
  induction ts, sym, en using parseLoop.induct <;> intro r hex h
  case case1 sym en =>
    simpa [parseLoop] using h.symm
  all_goals simp_all [parseLoop]

end Parser

/-- The token sequence of a `;`-terminated sequence of complete exit
statements with integer-literal operands. -/
def exitProgramTokens (vs : List Int) : List Token :=
  vs.foldr (fun v acc => exitStmtTokens v ++ acc) []

/-- Running the parse loop over a non-empty sequence of complete exit
statements yields the last statement's operand, whatever exit node was
current before. -/
theorem parseLoop_exitProgram : ∀ (vs : List Int) (v : Int)
    (sym : Parser.SymTable) (en : Option NodeExit),
    Parser.parseLoop (exitProgramTokens (vs ++ [v])) sym en =
      .ok (some ⟨⟨v⟩⟩)
  | [], v, sym, en => rfl
  | u :: vs, v, sym, en => parseLoop_exitProgram vs v sym (some ⟨⟨u⟩⟩)

/-! ## The claims -/

/-- Claim C1 (code bug evidence): the driver does not write the
Lexer → Parser → Generator output.  On file content `exit(5);` the driver's
own `tokenize`/`tokens_to_asm` write an assembly text with no `mov`
instructions, different from the Lexer → Parser → Generator text, and the
driver's lexer recognises the keyword `return` but neither `exit` nor
`let`. -/
theorem claim_C1_driver_bypasses_core :
    Main.mainOutput "exit(5);" = .ok "global _start\n_start:\n\n    syscall\n" ∧
    corePipeline "exit(5);" =
      .ok (some "global _start\n_start:\n    mov rax, 60\n    mov rdi, 5 \n    syscall\n") ∧
    ("global _start\n_start:\n\n    syscall\n" : String) ≠
      "global _start\n_start:\n    mov rax, 60\n    mov rdi, 5 \n    syscall\n" ∧
    Main.tokenize "exit 0;" =
      [Main.TokenType.IntLiteral 0, Main.TokenType.Semicolon] ∧
    Main.tokenize "let x = 1;" =
      [Main.TokenType.IntLiteral 1, Main.TokenType.Semicolon] ∧
    Main.tokenize "return 0;" =
      [Main.TokenType.Return, Main.TokenType.IntLiteral 0,
        Main.TokenType.Semicolon] :=
  ⟨by decide, by decide, by decide, by decide, by decide, by decide⟩

/-- Claim C2: the lexer is total (it is a function into token lists and
raises nothing); the empty input yields no tokens; a delimiter-free run is
flushed as one token classified in priority order `exit`, `let`, `i64`
literal, identifier; a punctuation delimiter additionally emits its own
token while a whitespace delimiter emits nothing. -/
theorem claim_C2_lexer_classification :
    Tokenizer.tokenize "" = [] ∧
    (∀ s : String, s.data ≠ [] →
      (∀ c ∈ s.data, Tokenizer.isDelim c = false) →
      Tokenizer.tokenize s = [Tokenizer.classify s]) ∧
    (∀ (run : List Char) (d : Char) (t : List Char), run ≠ [] →
      (∀ c ∈ run, Tokenizer.isDelim c = false) → Tokenizer.isDelim d = true →
      Tokenizer.tokenize (String.mk (run ++ d :: t)) =
        Tokenizer.classify (String.mk run) ::
          (Tokenizer.punctToken d ++ Tokenizer.tokenize (String.mk t))) ∧
    (∀ (d : Char) (t : List Char), Tokenizer.isDelim d = true →
      Tokenizer.tokenize (String.mk (d :: t)) =
        Tokenizer.punctToken d ++ Tokenizer.tokenize (String.mk t)) ∧
    (∀ acc : String, acc ≠ "" →
      Tokenizer.classify acc =
        (if acc = "exit" then Token.Exit
         else if acc = "let" then Token.Let
         else match parseI64 acc with
           | some value => Token.IntLiteral value
           | none => Token.Identifier (rustTrim acc))) := by
  refine ⟨rfl, ?_, ?_, ?_, fun acc _ => rfl⟩
  · intro s h0 hnd
    rcases s with ⟨data⟩
    show Tokenizer.tokenizeAux data [] = _
    rw [Tokenizer.tokenizeAux_nondelim data [] hnd]
    simp only [Tokenizer.flush, List.nil_append]
    rw [if_neg h0]
  · intro run d t hne hnd hd
    show Tokenizer.tokenizeAux (run ++ d :: t) [] = _
    rw [Tokenizer.tokenizeAux_split run d t [] hnd hd]
    simp only [Tokenizer.flush, List.nil_append]
    rw [if_neg hne]
    rfl
  · intro d t hd
    show Tokenizer.tokenizeAux (d :: t) [] = _
    simp only [Tokenizer.tokenizeAux, hd, if_true, Tokenizer.flush,
      if_pos rfl, List.nil_append]
    rfl

/-- Witness for C2: the run `5` followed by the delimiter `;` and the
remainder `x` is flushed as one token, then the semicolon's token, then the
tokens of the remainder. -/
theorem claim_C2_witness :
    Tokenizer.tokenize (String.mk (['5'] ++ ';' :: ['x'])) =
      Tokenizer.classify (String.mk ['5']) ::
        (Tokenizer.punctToken ';' ++ Tokenizer.tokenize (String.mk ['x'])) :=
  claim_C2_lexer_classification.2.2.1 ['5'] ';' ['x']
    (by decide) (by decide) (by decide)

/-- Claim C3: whenever `Parser::parse` returns normally it returns `Some`
program node (never `None`), and on a token sequence containing no `Exit`
token at all the node is the default program node with integer value 0. -/
theorem claim_C3_parse_total_default :
    ∀ (tokens : List Token) (r : Option NodeExit),
      Parser.parse tokens = .ok r →
      (∃ n, r = some n) ∧ (Token.Exit ∉ tokens → r = some ⟨⟨0⟩⟩) := by
  intro tokens r h
  refine ⟨Parser.parseLoop_ok_isSome tokens [] none r h, fun hex => ?_⟩
  simpa using Parser.parseLoop_no_exit tokens [] none r hex h

/-- Witness for C3 at the token sequence `[;]`. -/
theorem claim_C3_witness :
    (∃ n, (some (⟨⟨0⟩⟩ : NodeExit)) = some n) ∧
      (Token.Exit ∉ [Token.Semicolon] →
        (some (⟨⟨0⟩⟩ : NodeExit)) = some ⟨⟨0⟩⟩) :=
  claim_C3_parse_total_default [Token.Semicolon] (some ⟨⟨0⟩⟩) (by decide)

/-- Claim C4: binding resolution is a pure compile-time substitution with
last-write-wins overwriting; the two program pairs generate byte-identical
assembly text, and the common texts are the expected ones. -/
theorem claim_C4_binding_substitution :
    corePipeline "let x = 5; exit(x);" = corePipeline "exit(5);" ∧
    corePipeline "let x = 1; let x = 2; exit(x);" = corePipeline "exit(2);" ∧
    corePipeline "exit(5);" =
      .ok (some "global _start\n_start:\n    mov rax, 60\n    mov rdi, 5 \n    syscall\n") ∧
    corePipeline "exit(2);" =
      .ok (some "global _start\n_start:\n    mov rax, 60\n    mov rdi, 2 \n    syscall\n") :=
  ⟨by decide, by decide, by decide, by decide⟩

/-- Claim C5: `Generator::generate` is a total function (no error path) and
for every integer value of the program node's expression it returns the one
fixed-shape text with the value substituted positionally between a constant
head and a constant tail. -/
theorem claim_C5_generator_shape :
    ∀ value : Int, Generator.generate ⟨⟨value⟩⟩ =
      "global _start\n_start:\n    mov rax, 60\n    mov rdi, " ++
        toString value ++ " \n    syscall\n" :=
  fun _ => rfl

/-- Claim C6: an exit operand that is an identifier with no entry in the
binding table makes parsing terminate with a terminal error whose message
names the undefined identifier (so no program node and no assembly are
produced); in particular `exit(y);` with no prior binding of `y`. -/
theorem claim_C6_undefined_identifier :
    (∀ (name : String) (rest : List Token) (sym : Parser.SymTable)
        (en : Option NodeExit), sym.lookup name = none →
      Parser.parseLoop (Token.Exit :: Token.OpenParen ::
          Token.Identifier name :: rest) sym en =
        .error ("Undefined variable: " ++ name)) ∧
    Parser.parse (Tokenizer.tokenize "exit(y);") =
      .error ("Undefined variable: " ++ "y") := by
  constructor
  · intro name rest sym en h
    simp [Parser.parseLoop, h]
  · decide

/-- Witness for C6: `exit(y);` token by token, with an empty binding
table. -/
theorem claim_C6_witness :
    Parser.parseLoop [Token.Exit, Token.OpenParen, Token.Identifier "y",
        Token.CloseParen, Token.Semicolon] [] none =
      .error ("Undefined variable: " ++ "y") :=
  claim_C6_undefined_identifier.1 "y" [Token.CloseParen, Token.Semicolon]
    [] none (by decide)

/-- Claim C7 counterexample: not every deviation from the binding order
(`Let`, identifier, `Equals`, integer literal) aborts with a message naming
the expected token kind: on the token sequence `[Let]` (a deviation by
truncation) the parser panics with the out-of-bounds index message, which is
none of the expectation-naming messages. -/
theorem claim_C7_counterexample :
    Parser.parse [Token.Let] = .error Parser.oobPanic ∧
    Parser.oobPanic ≠ "Expected identifier for variable name." ∧
    Parser.oobPanic ≠ "Expected equals sign after identifier." ∧
    Parser.oobPanic ≠ "Expected an integer after equals sign." ∧
    Parser.oobPanic ≠ "Expected an open parenthesis after 'exit'." ∧
    Parser.oobPanic ≠ "Expected a close parenthesis after expression." :=
  ⟨by decide, by decide, by decide, by decide, by decide, by decide⟩

/-- Claim C7 as amended: every binding-order deviation in which a wrong
token is present (rather than the sequence ending) aborts with the error
naming the expected token kind; such an abort inside the loop is the
loop's final result; an exit statement missing its open parenthesis aborts
with the syntax error naming it, in particular for the tokens of
`exit 5;`; in each case no program node results. -/
theorem claim_C7_amended :
    (∀ (t : Token) (rest : List Token) (sym : Parser.SymTable),
      (∀ name, t ≠ Token.Identifier name) →
      Parser.parse_assignment (Token.Let :: t :: rest) sym =
        .error "Expected identifier for variable name.") ∧
    (∀ (name : String) (t : Token) (rest : List Token)
        (sym : Parser.SymTable), t ≠ Token.Equals →
      Parser.parse_assignment
          (Token.Let :: Token.Identifier name :: t :: rest) sym =
        .error "Expected equals sign after identifier.") ∧
    (∀ (name : String) (t : Token) (rest : List Token)
        (sym : Parser.SymTable), (∀ value, t ≠ Token.IntLiteral value) →
      Parser.parse_assignment (Token.Let :: Token.Identifier name ::
          Token.Equals :: t :: rest) sym =
        .error "Expected an integer after equals sign.") ∧
    (∀ (rest : List Token) (sym : Parser.SymTable) (en : Option NodeExit)
        (e : String),
      Parser.parse_assignment (Token.Let :: rest) sym = .error e →
      Parser.parseLoop (Token.Let :: rest) sym en = .error e) ∧
    (∀ (t : Token) (rest : List Token) (sym : Parser.SymTable)
        (en : Option NodeExit), t ≠ Token.OpenParen →
      Parser.parseLoop (Token.Exit :: t :: rest) sym en =
        .error "Expected an open parenthesis after 'exit'.") ∧
    Parser.parse (Tokenizer.tokenize "exit 5;") =
      .error "Expected an open parenthesis after 'exit'." := by
  refine ⟨?_, ?_, ?_, ?_, ?_, by decide⟩
  · intro t rest sym h
    cases t <;> first | rfl | (exact absurd rfl (h _))
  · intro name t rest sym h
    cases t <;> first | rfl | (exact absurd rfl h)
  · intro name t rest sym h
    cases t <;> first | rfl | (exact absurd rfl (h _))
  · intro rest sym en e h
    rw [Parser.parseLoop_let_eq, h]
  · intro t rest sym en h
    cases t <;> first | rfl | (exact absurd rfl h)

/-- Witness for C7 (amended) at the token sequence of `exit 5;`. -/
theorem claim_C7_witness :
    Parser.parseLoop [Token.Exit, Token.IntLiteral 5, Token.Semicolon]
        [] none =
      .error "Expected an open parenthesis after 'exit'." :=
  claim_C7_amended.2.2.2.2.1 (Token.IntLiteral 5) [Token.Semicolon] [] none
    (by decide)

/-- Claim C8: a maximal all-digit run whose value exceeds the 64-bit signed
range does not make the lexer fail and is not emitted as an integer token:
it falls through to the identifier fallback, producing an `Identifier` token
carrying the numeral's text. -/
theorem claim_C8_overflow_identifier :
    ∀ s : String, s.data ≠ [] → (∀ c ∈ s.data, isAsciiDigit c = true) →
    2 ^ 63 - 1 < digitsNat s.data →
    Tokenizer.tokenize s = [Token.Identifier s] := by
  intro s h0 hdig hbig
  have hnd : ∀ c ∈ s.data, Tokenizer.isDelim c = false :=
    fun c hc => isDelim_eq_false_of_digit (hdig c hc)
  have hmk : String.mk s.data = s := by cases s; rfl
  have h1 : Tokenizer.tokenize s = [Tokenizer.classify s] := by
    show Tokenizer.tokenizeAux s.data [] = _
    rw [Tokenizer.tokenizeAux_nondelim s.data [] hnd]
    simp only [Tokenizer.flush, List.nil_append, hmk]
    rw [if_neg h0]
  rw [h1]
  have hexit : s ≠ "exit" := by
    intro he; subst he; exact absurd (hdig 'e' (by decide)) (by decide)
  have hlet : s ≠ "let" := by
    intro he; subst he; exact absurd (hdig 'l' (by decide)) (by decide)
  have hof : parseI64 s = none := by
    have h2 := parseI64_overflow s.data h0 hdig hbig
    rwa [hmk] at h2
  have htrim : rustTrim s = s := rustTrim_of_digits s hdig
  simp [Tokenizer.classify, hexit, hlet, hof, htrim]

/-- Witness for C8 at the numeral `2^63` itself, one past the largest
`i64`. -/
theorem claim_C8_witness :
    Tokenizer.tokenize "9223372036854775808" =
      [Token.Identifier "9223372036854775808"] :=
  claim_C8_overflow_identifier "9223372036854775808"
    (by decide) (by decide) (by decide)

/-- Claim C9: the parser can panic without a message naming a violated
expectation: the tokens of `exit(` and of `let x =` end mid-statement and
panic with the out-of-bounds index message, and on the tokens of `exit();`
the operand position holds neither an integer literal nor an identifier, so
`parse_expression` yields `none` and `parse` panics unwrapping it. -/
theorem claim_C9_truncation_panics :
    Parser.parse (Tokenizer.tokenize "exit(") = .error Parser.oobPanic ∧
    Parser.parse (Tokenizer.tokenize "let x =") = .error Parser.oobPanic ∧
    Parser.parse (Tokenizer.tokenize "exit();") = .error Parser.unwrapPanic ∧
    Tokenizer.tokenize "exit(" = [Token.Exit, Token.OpenParen] ∧
    Tokenizer.tokenize "let x =" =
      [Token.Let, Token.Identifier "x", Token.Equals] ∧
    Tokenizer.tokenize "exit();" =
      [Token.Exit, Token.OpenParen, Token.CloseParen, Token.Semicolon] :=
  ⟨by decide, by decide, by decide, by decide, by decide, by decide⟩

/-- Claim C10: each complete parenthesised exit statement overwrites
whatever exit node the loop carried, so over a sequence of two or more
complete exit statements `parse` returns normally with the last statement's
expression; all earlier exit expressions are discarded. -/
theorem claim_C10_last_exit_wins :
    (∀ (v : Int) (rest : List Token) (sym : Parser.SymTable)
        (en : Option NodeExit),
      Parser.parseLoop (Token.Exit :: Token.OpenParen :: Token.IntLiteral v ::
          Token.CloseParen :: rest) sym en =
        Parser.parseLoop rest sym (some ⟨⟨v⟩⟩)) ∧
    (∀ (vs : List Int) (v : Int), vs ≠ [] →
      Parser.parse (exitProgramTokens (vs ++ [v])) = .ok (some ⟨⟨v⟩⟩)) := by
  constructor
  · intro v rest sym en
    rfl
  · intro vs v _
    exact parseLoop_exitProgram vs v [] none

/-- Witness for C10: `exit(1); exit(2);` parses to the program node with
value 2. -/
theorem claim_C10_witness :
    Parser.parse (exitProgramTokens ([1] ++ [2])) = .ok (some ⟨⟨2⟩⟩) :=
  claim_C10_last_exit_wins.2 [1] 2 (by decide)
